import Mathlib

/-!
Shallow embedding of `src/dungeon_crawler.c` (a console dungeon crawler):
graph-based dungeon generation (`create_dungeon`), room entry handlers
(`enter_empty` / `enter_monster` / `enter_item` / `enter_treasure`),
bitwise combat (`fight`), and the binary save/load codec
(`save_game` / `load_game`).

Modelling conventions:
- C `int` fields become `Int` (the program never exercises 32-bit overflow in
  the claims under study; signed overflow is UB in C anyway).
- `rand()` is modelled as an explicit stream of non-negative draws
  (`RNG := List Nat`); an exhausted list keeps yielding 0, matching an
  arbitrary but fixed infinite stream.
- Pointers to rooms are replaced by room ids (the C code maintains
  `rooms[i]->id == i` throughout, so ids and pointers are interchangeable).
- The byte stream of the save file is modelled one `int`-sized field per list
  element (`List Int`), exactly the granularity of every `fwrite`/`fread` in
  the C code.
- `fread` whose result is ignored on a truncated stream leaves the target
  variable with indeterminate content in C; this is modelled by a garbage
  parameter `g : Int` that every failed read yields.
- Loops whose trip count is data dependent (`fight`'s outer while) take an
  explicit fuel argument; `none` means the fuel ran out, never a C outcome.
-/

namespace DungeonCrawler

/-- C `enum ContentType { NONE, MONSTER, ITEM, TREASURE }`. -/
inductive ContentType
  | NONE
  | MONSTER
  | ITEM
  | TREASURE
deriving DecidableEq

/-- C `enum MonsterType { GOBLIN, TROLL }`. -/
inductive MonsterType
  | GOBLIN
  | TROLL
deriving DecidableEq

/-- C `enum ItemType { POTION, SWORD }`. -/
inductive ItemType
  | POTION
  | SWORD
deriving DecidableEq

/-- C `struct Monster`. -/
structure Monster where
  type : MonsterType
  name : String
  hp : Int
  damage : Int
deriving DecidableEq

instance : Inhabited Monster := ⟨⟨.GOBLIN, "", 0, 0⟩⟩

/-- C `struct Item`. -/
structure Item where
  type : ItemType
  name : String
  hp_restore : Int
  damage_boost : Int
deriving DecidableEq

instance : Inhabited Item := ⟨⟨.POTION, "", 0, 0⟩⟩

/-- The `void* content` pointer of a room: `NULL`, a `Monster*`, or an
`Item*`. -/
inductive Content
  | null
  | monster (m : Monster)
  | item (it : Item)
deriving DecidableEq

/-- The C cast `(Monster*)room->content`.  On a tag/payload mismatch the C
program would dereference a wrong-typed or null pointer (UB); the model
returns the default monster there, and the theorems below only rely on it
under a well-formedness hypothesis. -/
def getMonster : Content → Monster
  | .monster m => m
  | _ => default

/-- The C cast `(Item*)room->content` (same UB caveat as `getMonster`). -/
def getItem : Content → Item
  | .item it => it
  | _ => default

/-- The value of a room's `EnterFunc` function pointer: the C program only
ever stores the four named handlers, so the pointer is a four-valued tag. -/
inductive EnterTag
  | empty
  | monster
  | item
  | treasure
deriving DecidableEq

/-- C `struct Room`; `neighbors` keeps the adjacency linked list as the list
of neighboring room ids, head = most recently prepended node. -/
structure Room where
  id : Nat
  neighbors : List Nat
  content_type : ContentType
  content : Content
  visited : Int
  enter : EnterTag
deriving DecidableEq

instance : Inhabited Room := ⟨⟨0, [], .NONE, .null, 0, .empty⟩⟩

/-- C `struct Player`; `location` is the id of the current room. -/
structure Player where
  location : Nat
  hp : Int
  damage : Int
deriving DecidableEq

/-- The pseudorandom source: the successive non-negative values returned by
`rand()`. -/
abbrev RNG := List Nat

/-- One `rand()` call: next draw and the remaining stream (an exhausted list
keeps producing 0). -/
def randNext (g : RNG) : Nat × RNG := (g.headD 0, g.tail)

/-- C `%` applied to a non-negative dividend `a` and an `int` divisor `b`:
truncated division gives `a % b = a mod |b|` for every `b ≠ 0` (for `b = 0`
the C expression is UB; the model then returns `a`, and no theorem below
depends on that case). -/
def cmod (a : Nat) (b : Int) : Nat := a % b.natAbs

/-! ## Dungeon generation (`create_dungeon`) -/

/-- The room initialization loop at the top of `create_dungeon`. -/
def initRooms (n : Nat) : List Room :=
  (List.range n).map fun i =>
    { id := i, neighbors := [], content_type := .NONE, content := .null,
      visited := 0, enter := .empty }

/-- C `add_neighbor`: prepend a new list node. -/
def add_neighbor (head : List Nat) (roomId : Nat) : List Nat := roomId :: head

/-- `rooms[i]->neighbors = add_neighbor(rooms[i]->neighbors, rooms[j])`. -/
def addNb (rooms : List Room) (i j : Nat) : List Room :=
  rooms.set i
    (let r := rooms.getD i default
     { r with neighbors := add_neighbor r.neighbors j })

/-- The two `add_neighbor` calls that record one undirected edge. -/
def connectRooms (rooms : List Room) (i j : Nat) : List Room :=
  addNb (addNb rooms i j) j i

/-- Degree of room `i`: the C code recomputes it by walking the list. -/
def degreeOf (rooms : List Room) (i : Nat) : Nat :=
  (rooms.getD i default).neighbors.length

/-- The duplicate-edge scan in the extra-edge pass
(`for (it = rooms[i]->neighbors; it; it = it->next) if (it->room->id == j)`). -/
def hasNeighbor (rooms : List Room) (i j : Nat) : Bool :=
  (rooms.getD i default).neighbors.contains j

/-- The spanning-tree pass: `for (i = 1; i < n; ++i) { j = rand() % i;
connect i and j }`, with the fuel counting the remaining iterations. -/
def treeGo : Nat → Nat → List Room → RNG → List Room × RNG
  | 0, _, rooms, g => (rooms, g)
  | fuel + 1, i, rooms, g =>
    treeGo fuel (i + 1) (connectRooms rooms i ((randNext g).1 % i)) (randNext g).2

/-- The inner loop of the extra-edge pass: `for (e = 0; e < extras; ++e)`
draw `j = rand() % n`, and connect unless `j == i` or already adjacent. -/
def extraInner (n i : Nat) : Nat → List Room → RNG → List Room × RNG
  | 0, rooms, g => (rooms, g)
  | e + 1, rooms, g =>
    if (randNext g).1 % n = i then extraInner n i e rooms (randNext g).2
    else if hasNeighbor rooms i ((randNext g).1 % n) then
      extraInner n i e rooms (randNext g).2
    else extraInner n i e (connectRooms rooms i ((randNext g).1 % n)) (randNext g).2

/-- One iteration of the extra-edge pass for room `i`: recompute the degree,
draw `extras = rand() % (MAX_NEIGHBORS - deg + 1)`, run the inner loop. -/
def extraStep (n i : Nat) (rooms : List Room) (g : RNG) : List Room × RNG :=
  extraInner n i (cmod (randNext g).1 ((4 : Int) - (degreeOf rooms i : Int) + 1))
    rooms (randNext g).2

/-- The extra-edge pass: `for (i = 0; i < n; ++i)`. -/
def extraGo (n : Nat) : Nat → Nat → List Room → RNG → List Room × RNG
  | 0, _, rooms, g => (rooms, g)
  | fuel + 1, i, rooms, g =>
    extraGo n fuel (i + 1) (extraStep n i rooms g).1 (extraStep n i rooms g).2

/-- C `create_dungeon(n)`: initialize, spanning-tree pass, extra-edge pass.
Returns the room array and the remaining RNG stream. -/
def create_dungeon (n : Nat) (g : RNG) : List Room × RNG :=
  extraGo n n 0 (treeGo (n - 1) 1 (initRooms n) g).1 (treeGo (n - 1) 1 (initRooms n) g).2

/-- Adjacency: `b` occurs in `a`'s neighbor list. -/
def Adj (rooms : List Room) (a b : Nat) : Prop :=
  b ∈ (rooms.getD a default).neighbors

/-- Reachability along the neighbor relation. -/
def Reach (rooms : List Room) (a b : Nat) : Prop :=
  Relation.ReflTransGen (Adj rooms) a b

/-! ## Combat (`fight`) -/

/-- The inner bit loop of `fight`:
`for (i = 0; i < BIT_ROUND_BITS && player->hp>0 && mon->hp>0; ++i)`
with `bit = (rnd >> i) & 1`; bit 0 hits the player, bit 1 hits the monster.
The first argument counts the remaining iterations (started at 16),
`i` is the current bit index. -/
def bitLoop (rnd : Nat) : Nat → Nat → Int → Int → Int → Int → Int × Int
  | 0, _, php, mhp, _, _ => (php, mhp)
  | rem + 1, i, php, mhp, pdmg, mdmg =>
    if 0 < php ∧ 0 < mhp then
      if (rnd >>> i) % 2 = 0 then bitLoop rnd rem (i + 1) (php - mdmg) mhp pdmg mdmg
      else bitLoop rnd rem (i + 1) php (mhp - pdmg) pdmg mdmg
    else (php, mhp)

/-- Outcome of `fight`: a normal return (monster dead, the player's and the
monster's final hp and the remaining RNG stream), or the `exit(0)` taken when
the player's hp dropped to 0 or below. -/
inductive FightOutcome
  | survived (playerHp monsterHp : Int) (g : RNG)
  | gameOver
deriving DecidableEq

/-- The outer round loop of `fight`: `while (player->hp > 0 && mon->hp > 0)`
draw `rnd = rand() % (1 << 16)` and run the bit loop.  The fuel bounds the
number of rounds; `none` means the fuel ran out (the C loop is still
running), never a C-level outcome. -/
def fightGo : Nat → Int → Int → Int → Int → RNG → Option FightOutcome
  | 0, _, _, _, _, _ => none
  | fuel + 1, php, mhp, pdmg, mdmg, g =>
    if 0 < php ∧ 0 < mhp then
      fightGo fuel (bitLoop ((randNext g).1 % 65536) 16 0 php mhp pdmg mdmg).1
        (bitLoop ((randNext g).1 % 65536) 16 0 php mhp pdmg mdmg).2
        pdmg mdmg (randNext g).2
    else if php ≤ 0 then some .gameOver
    else some (.survived php mhp g)

/-! ## Room entry handlers -/

/-- Result of an entry handler: the updated room, player, and RNG stream, or
the process exit taken inside `fight` when the player dies. -/
inductive EnterResult
  | ok (room : Room) (player : Player) (g : RNG)
  | died
deriving DecidableEq

/-- C `enter_empty`: print and set `room->visited = 1`. -/
def enter_empty (room : Room) (player : Player) : Room × Player :=
  ({ room with visited := 1 }, player)

/-- C `enter_monster`: a visited room behaves as empty; otherwise fight the
monster, and if it died clear the room's content and handler; mark visited.
`none` = combat fuel exhausted (no C counterpart). -/
def enter_monster (fuel : Nat) (room : Room) (player : Player) (g : RNG) :
    Option EnterResult :=
  if room.visited ≠ 0 then
    some (.ok (enter_empty room player).1 (enter_empty room player).2 g)
  else
    let m := getMonster room.content
    match fightGo fuel player.hp m.hp player.damage m.damage g with
    | none => none
    | some .gameOver => some .died
    | some (.survived php mhp g1) =>
      let player1 : Player := { player with hp := php }
      if mhp ≤ 0 then
        some (.ok { room with content := .null, content_type := .NONE,
                              enter := .empty, visited := 1 } player1 g1)
      else
        some (.ok { room with content := .monster { m with hp := mhp },
                              visited := 1 } player1 g1)

/-- The `if (it->hp_restore)` guarded update in `enter_item`. -/
def applyRestore (player : Player) (it : Item) : Player :=
  if it.hp_restore ≠ 0 then { player with hp := player.hp + it.hp_restore } else player

/-- The `if (it->damage_boost)` guarded update in `enter_item`. -/
def applyBoost (player : Player) (it : Item) : Player :=
  if it.damage_boost ≠ 0 then { player with damage := player.damage + it.damage_boost }
  else player

/-- C `enter_item`: a visited room behaves as empty; otherwise apply the
item's effects (each guarded by a nonzero test in C), clear content, mark
visited. -/
def enter_item (room : Room) (player : Player) : Room × Player :=
  if room.visited ≠ 0 then enter_empty room player
  else
    ({ room with content := .null, content_type := .NONE,
                 enter := .empty, visited := 1 },
     applyBoost (applyRestore player (getItem room.content)) (getItem room.content))

/-- C `enter_treasure`: prints the win message, mutates nothing. -/
def enter_treasure (room : Room) (player : Player) : Room × Player :=
  (room, player)

/-- Dispatch through the room's `enter` function pointer. -/
def runEnter (fuel : Nat) (room : Room) (player : Player) (g : RNG) :
    Option EnterResult :=
  match room.enter with
  | .empty => some (.ok (enter_empty room player).1 (enter_empty room player).2 g)
  | .monster => enter_monster fuel room player g
  | .item => some (.ok (enter_item room player).1 (enter_item room player).2 g)
  | .treasure => some (.ok (enter_treasure room player).1 (enter_treasure room player).2 g)

/-! ## Main loop step -/

/-- C `find_neighbor`: first node in the current room's list whose room id
equals the chosen value. -/
def find_neighbor (cur : Room) (choice : Int) : Option Nat :=
  cur.neighbors.find? fun nb => (nb : Int) = choice

/-- The full mutable state the main loop works on. -/
structure GameState where
  rooms : List Room
  player : Player
deriving DecidableEq

/-- How one iteration of the `while (1)` loop in `main` ended. -/
inductive StepOutcome
  | win
  | keepPlaying
  | savedAndQuit
  | died
  | inputEnd
deriving DecidableEq

/-- One iteration of the main loop: treasure check (break on win), entry
handler dispatch, then the door prompt (`input`: `none` models a failed
`scanf`, `some (-1)` the save-and-quit choice, any other value a door
choice validated by `find_neighbor`). -/
def mainStep (fuel : Nat) (s : GameState) (g : RNG) (input : Option Int) :
    StepOutcome × GameState × RNG :=
  let cur := s.rooms.getD s.player.location default
  if cur.content_type = .TREASURE then
    let _ := enter_treasure cur s.player
    (.win, s, g)
  else
    match runEnter fuel cur s.player g with
    | none => (.keepPlaying, s, g)
    | some .died => (.died, s, g)
    | some (.ok room1 player1 g1) =>
      let rooms1 := s.rooms.set s.player.location room1
      match input with
      | none => (.inputEnd, { rooms := rooms1, player := player1 }, g1)
      | some c =>
        if c = -1 then (.savedAndQuit, { rooms := rooms1, player := player1 }, g1)
        else
          match find_neighbor room1 c with
          | some dest =>
            (.keepPlaying,
             { rooms := rooms1, player := { player1 with location := dest } }, g1)
          | none => (.keepPlaying, { rooms := rooms1, player := player1 }, g1)

/-! ## Persistence codec (`save_game` / `load_game`)

The save file is a sequence of `int`-sized fields; it is modelled as a
`List Int`, one element per `fwrite`/`fread` of the C code. -/

/-- The integer value of a `ContentType` tag as written by `fwrite`. -/
def ContentType.code : ContentType → Int
  | .NONE => 0
  | .MONSTER => 1
  | .ITEM => 2
  | .TREASURE => 3

/-- The branch structure of `load_game` on the tag it read:
`ct == MONSTER`, else `ct == ITEM`, else `ct == TREASURE`, else nothing. -/
def codeToContentType (x : Int) : ContentType :=
  if x = 1 then .MONSTER else if x = 2 then .ITEM
  else if x = 3 then .TREASURE else .NONE

/-- The integer value of a `MonsterType` tag. -/
def MonsterType.code : MonsterType → Int
  | .GOBLIN => 0
  | .TROLL => 1

/-- `load_game`'s reading of a monster tag (`mt == GOBLIN ? ... : ...`). -/
def codeToMonsterType (x : Int) : MonsterType :=
  if x = 0 then .GOBLIN else .TROLL

/-- The integer value of an `ItemType` tag. -/
def ItemType.code : ItemType → Int
  | .POTION => 0
  | .SWORD => 1

/-- `load_game`'s reading of an item tag (`itp == POTION ? ... : ...`). -/
def codeToItemType (x : Int) : ItemType :=
  if x = 0 then .POTION else .SWORD

/-- The name `load_game` re-derives for a monster type. -/
def monsterName : MonsterType → String
  | .GOBLIN => "Goblin"
  | .TROLL => "Troll"

/-- The item payload `load_game` re-derives from the item tag
(Potion: +10 hp; Sword: +2 damage). -/
def itemOf : ItemType → Item
  | .POTION => { type := .POTION, name := "Potion", hp_restore := 10, damage_boost := 0 }
  | .SWORD => { type := .SWORD, name := "Sword", hp_restore := 0, damage_boost := 2 }

/-- The content payload fields `save_game` writes for one room. -/
def payloadOf (r : Room) : List Int :=
  match r.content_type with
  | .MONSTER =>
    [(getMonster r.content).type.code, (getMonster r.content).hp,
     (getMonster r.content).damage]
  | .ITEM => [(getItem r.content).type.code]
  | _ => []

/-- The neighbor ids of a room as the `int` fields `save_game` writes. -/
def encodeIds (ids : List Nat) : List Int := ids.map Int.ofNat

/-- The fields `save_game` writes for one room: visited, tag, payload,
degree, then the neighbor ids in list (insertion) order. -/
def encodeRoom (r : Room) : List Int :=
  r.visited :: r.content_type.code ::
    (payloadOf r ++ ((r.neighbors.length : Int) :: encodeIds r.neighbors))

/-- The room-writing loop of `save_game`, over the rooms in id order. -/
def encodeRooms : List Room → List Int
  | [] => []
  | r :: rs => encodeRoom r ++ encodeRooms rs

/-- C `save_game`: header `[n, player room id, hp, damage]` then each room in
id order.  The C function receives the array length `n` separately; here it
is `rooms.length`. -/
def save_game (player : Player) (rooms : List Room) : List Int :=
  (rooms.length : Int) :: (player.location : Int) :: player.hp :: player.damage ::
    encodeRooms rooms

/-- One `fread` of an `int`-sized field.  On a truncated stream the C code
ignores the failed read and uses the uninitialized variable; the model
yields the garbage value `g` there. -/
def rd (g : Int) : List Int → Int × List Int
  | [] => (g, [])
  | x :: s => (x, s)

/-- The neighbor-reading loop of `load_game`: read `k` ids and prepend each
to the accumulator with `add_neighbor` (the C code first buffers the ids in
an array and then prepends them in read order, which builds the same list).
A negative or out-of-range id makes the C code index `rooms[]` out of
bounds (UB); the model keeps `id.toNat`. -/
def readNeighbors (g : Int) : Nat → List Nat → List Int → List Nat × List Int
  | 0, acc, s => (acc, s)
  | k + 1, acc, s =>
    let p := rd g s
    readNeighbors g k (add_neighbor acc p.1.toNat) p.2

/-- The per-room body of `load_game`'s reading loop for room index `i`. -/
def loadRoom (g : Int) (i : Nat) (s : List Int) : Room × List Int :=
  let pv := rd g s
  let pc := rd g pv.2
  let ct := codeToContentType pc.1
  let step :=
    match ct with
    | .MONSTER =>
      let pm := rd g pc.2
      let ph := rd g pm.2
      let pd := rd g ph.2
      let mt := codeToMonsterType pm.1
      (Content.monster { type := mt, name := monsterName mt, hp := ph.1, damage := pd.1 },
       EnterTag.monster, pd.2)
    | .ITEM =>
      let pi := rd g pc.2
      (Content.item (itemOf (codeToItemType pi.1)), EnterTag.item, pi.2)
    | .TREASURE => (Content.null, EnterTag.treasure, pc.2)
    | .NONE => (Content.null, EnterTag.empty, pc.2)
  let pdeg := rd g step.2.2
  let pn := readNeighbors g pdeg.1.toNat [] pdeg.2
  ({ id := i, neighbors := pn.1, content_type := ct, content := step.1,
     visited := pv.1, enter := step.2.1 }, pn.2)

/-- The room-reading loop of `load_game` (`for (i = 0; i < n; i++)`),
building the rooms for indices `i, i+1, ...`. -/
def loadRooms (g : Int) : Nat → Nat → List Int → List Room × List Int
  | _, 0, s => ([], s)
  | i, k + 1, s =>
    let pr := loadRoom g i s
    let rest := loadRooms g (i + 1) k pr.2
    (pr.1 :: rest.1, rest.2)

/-- The state `load_game` reconstructs (room array, player, and the raw `n`
field it read). -/
structure LoadedGame where
  rooms : List Room
  player : Player
  n : Int
deriving DecidableEq

/-- C `load_game` on an already-opened stream: read `n`, the player header,
then every room.  No read is checked; `g` is the garbage an unchecked failed
`fread` leaves behind. -/
def load_game (g : Int) (s : List Int) : LoadedGame :=
  let pn := rd g s
  let pcur := rd g pn.2
  let php := rd g pcur.2
  let pdmg := rd g php.2
  let prooms := loadRooms g 0 pn.1.toNat pdmg.2
  { rooms := prooms.1,
    player := { location := pcur.1.toNat, hp := php.1, damage := pdmg.1 },
    n := pn.1 }

/-- Tag/payload consistency plus in-range neighbor ids: the domain on which
the C program's save path is free of UB (a mismatched tag would cast the
`void*` content to the wrong type; an out-of-range neighbor id would make
the load path index `rooms[]` out of bounds). -/
def roomOk (n : Nat) (r : Room) : Bool :=
  (match r.content_type, r.content with
   | .MONSTER, .monster _ => true
   | .MONSTER, _ => false
   | .ITEM, .item _ => true
   | .ITEM, _ => false
   | _, _ => true) &&
  r.neighbors.all fun id => id < n

/-- What `load_game` makes of room index `i` whose saved fields came from
room `r`: same visited flag and tag, canonicalized content payload, and the
neighbor list reversed by the prepending reads. -/
def loadedRoomOf (i : Nat) (r : Room) : Room :=
  { id := i,
    neighbors := r.neighbors.reverse,
    content_type := r.content_type,
    content :=
      match r.content_type with
      | .MONSTER =>
        .monster { type := (getMonster r.content).type,
                   name := monsterName (getMonster r.content).type,
                   hp := (getMonster r.content).hp,
                   damage := (getMonster r.content).damage }
      | .ITEM => .item (itemOf (getItem r.content).type)
      | _ => .null,
    visited := r.visited,
    enter :=
      match r.content_type with
      | .MONSTER => .monster
      | .ITEM => .item
      | .TREASURE => .treasure
      | .NONE => .empty }

/-- `loadedRoomOf` applied along a list with increasing indices. -/
def loadedRoomsOf (i : Nat) : List Room → List Room
  | [] => []
  | r :: rs => loadedRoomOf i r :: loadedRoomsOf (i + 1) rs

/-! ## Lemmas: adjacency bookkeeping for the generator -/

lemma addNb_getD (rooms : List Room) (i j a : Nat) :
    (addNb rooms i j).getD a default
      = if a = i ∧ i < rooms.length
        then { rooms.getD i default with
               neighbors := add_neighbor (rooms.getD i default).neighbors j }
        else rooms.getD a default := by
  unfold addNb
  rw [List.getD_eq_getElem?_getD, List.getElem?_set]
  by_cases hia : i = a
  · subst hia
    by_cases hlen : i < rooms.length
    · simp [hlen, List.getD_eq_getElem?_getD]
    · have hnone : rooms[i]? = none := List.getElem?_eq_none (Nat.le_of_not_lt hlen)
      simp [hlen, hnone, List.getD_eq_getElem?_getD]
  · simp [hia, Ne.symm hia, List.getD_eq_getElem?_getD]

lemma length_addNb (rooms : List Room) (i j : Nat) :
    (addNb rooms i j).length = rooms.length := List.length_set rooms i _

lemma length_connectRooms (rooms : List Room) (i j : Nat) :
    (connectRooms rooms i j).length = rooms.length := by
  unfold connectRooms
  rw [length_addNb, length_addNb]

lemma adj_addNb {rooms : List Room} {a b : Nat} (i j : Nat) (h : Adj rooms a b) :
    Adj (addNb rooms i j) a b := by
  unfold Adj at h ⊢
  rw [addNb_getD]
  split
  · rename_i hcond
    rw [hcond.1] at h
    exact List.mem_cons_of_mem _ h
  · exact h

lemma adj_connectRooms_mono {rooms : List Room} {a b : Nat} (i j : Nat)
    (h : Adj rooms a b) : Adj (connectRooms rooms i j) a b :=
  adj_addNb _ _ (adj_addNb _ _ h)

lemma adj_connectRooms_right (rooms : List Room) (i j : Nat)
    (hj : j < rooms.length) : Adj (connectRooms rooms i j) j i := by
  unfold connectRooms Adj
  rw [addNb_getD]
  have hlen : j < (addNb rooms i j).length := by rw [length_addNb]; exact hj
  simp [hlen, add_neighbor]

lemma reach_mono {r1 r2 : List Room} (h : ∀ a b, Adj r1 a b → Adj r2 a b)
    {a b : Nat} (hr : Reach r1 a b) : Reach r2 a b :=
  Relation.ReflTransGen.mono h hr

lemma treeGo_reach (n : Nat) :
    ∀ fuel i rooms g, rooms.length = n → 1 ≤ i → fuel + i = n →
      (∀ k, k < i → Reach rooms 0 k) →
      ∀ k, k < n → Reach (treeGo fuel i rooms g).1 0 k := by
  intro fuel
  induction fuel with
  | zero =>
    intro i rooms g _ _ hsum hreach k hk
    exact hreach k (by omega)
  | succ f ih =>
    intro i rooms g hlen hi hsum hreach k hk
    have hjlt : (randNext g).1 % i < i := Nat.mod_lt _ (by omega)
    simp only [treeGo]
    refine ih (i + 1) (connectRooms rooms i ((randNext g).1 % i)) (randNext g).2
      (by rw [length_connectRooms, hlen]) (by omega) (by omega) ?_ k hk
    intro m hm
    by_cases hmi : m < i
    · exact reach_mono (fun a b hab => adj_connectRooms_mono _ _ hab) (hreach m hmi)
    · have hmi2 : m = i := by omega
      subst hmi2
      have h0j : Reach (connectRooms rooms m ((randNext g).1 % m)) 0 ((randNext g).1 % m) :=
        reach_mono (fun a b hab => adj_connectRooms_mono _ _ hab) (hreach _ hjlt)
      exact h0j.tail (adj_connectRooms_right rooms m _ (by omega))

lemma adj_extraInner (n i : Nat) :
    ∀ e rooms g a b, Adj rooms a b → Adj (extraInner n i e rooms g).1 a b := by
  intro e
  induction e with
  | zero => intro rooms g a b h; exact h
  | succ e ih =>
    intro rooms g a b h
    simp only [extraInner]
    split
    · exact ih _ _ _ _ h
    · split
      · exact ih _ _ _ _ h
      · exact ih _ _ _ _ (adj_connectRooms_mono _ _ h)

lemma adj_extraStep (n i : Nat) (rooms : List Room) (g : RNG) (a b : Nat)
    (h : Adj rooms a b) : Adj (extraStep n i rooms g).1 a b :=
  adj_extraInner n i _ rooms _ a b h

lemma adj_extraGo (n : Nat) :
    ∀ fuel i rooms g a b, Adj rooms a b → Adj (extraGo n fuel i rooms g).1 a b := by
  intro fuel
  induction fuel with
  | zero => intro i rooms g a b h; exact h
  | succ f ih =>
    intro i rooms g a b h
    simp only [extraGo]
    exact ih _ _ _ _ _ (adj_extraStep n i rooms g a b h)

/-- C1.  For every room count `n > 1` and every RNG stream, every room of
the dungeon produced by `create_dungeon` is reachable from room 0 along the
neighbor relation: the spanning-tree pass links each room `i ≥ 1` to some
earlier room `j < i`, and the extra-edge pass only adds edges. -/
theorem c1_connected (n : Nat) (g : RNG) (hn : 1 < n) :
    ∀ k, k < n → Reach (create_dungeon n g).1 0 k := by
  intro k hk
  unfold create_dungeon
  refine reach_mono (fun a b hab => adj_extraGo n n 0 _ _ a b hab) ?_
  refine treeGo_reach n (n - 1) 1 (initRooms n) g ?_ le_rfl (by omega) ?_ k hk
  · simp [initRooms]
  · intro m hm
    have hm0 : m = 0 := by omega
    subst hm0
    exact Relation.ReflTransGen.refl

/-- Witness for C1 at the concrete input `n = 2` with the all-zero RNG
stream. -/
theorem c1_connected_witness : 1 < 2 ∧ Reach (create_dungeon 2 []).1 0 1 :=
  ⟨by decide, c1_connected 2 [] (by decide) 1 (by decide)⟩

/-! ## Lemmas: degrees in the extra-edge pass -/

lemma degreeOf_addNb_self (rooms : List Room) (i j : Nat) :
    degreeOf (addNb rooms i j) i ≤ degreeOf rooms i + 1 := by
  unfold degreeOf
  rw [addNb_getD]
  split
  · simp [add_neighbor]
  · omega

lemma degreeOf_addNb_other (rooms : List Room) (i j a : Nat) (h : a ≠ i) :
    degreeOf (addNb rooms i j) a = degreeOf rooms a := by
  unfold degreeOf
  rw [addNb_getD]
  simp [h]

lemma degreeOf_connectRooms_self (rooms : List Room) (i j : Nat) (hij : i ≠ j) :
    degreeOf (connectRooms rooms i j) i ≤ degreeOf rooms i + 1 := by
  unfold connectRooms
  rw [degreeOf_addNb_other _ _ _ _ hij]
  exact degreeOf_addNb_self rooms i j

lemma degreeOf_extraInner (n i : Nat) :
    ∀ e rooms g, degreeOf (extraInner n i e rooms g).1 i ≤ degreeOf rooms i + e := by
  intro e
  induction e with
  | zero => intro rooms g; simp [extraInner]
  | succ e ih =>
    intro rooms g
    simp only [extraInner]
    split
    · have := ih rooms (randNext g).2
      omega
    · split
      · have := ih rooms (randNext g).2
        omega
      · rename_i hji _
        have h1 := ih (connectRooms rooms i ((randNext g).1 % n)) (randNext g).2
        have h2 := degreeOf_connectRooms_self rooms i ((randNext g).1 % n)
          (fun hc => hji hc.symm)
        omega

lemma cmod_lt_natAbs (r : Nat) (b : Int) (hb : b ≠ 0) : cmod r b < b.natAbs :=
  Nat.mod_lt _ (by omega)

/-- C3 (amended).  One iteration of the extra-edge pass for room `i` never
raises the initiating room's own degree above 4: the drawn `extras` budget
is capped at `4 - degree(i)` whenever `degree(i) ≤ 4`. -/
theorem c3_initiator_degree_bound (n i : Nat) (rooms : List Room) (g : RNG)
    (h : degreeOf rooms i ≤ 4) :
    degreeOf (extraStep n i rooms g).1 i ≤ 4 := by
  unfold extraStep
  have hb : ((4 : Int) - (degreeOf rooms i : Int) + 1) ≠ 0 := by omega
  have h1 := cmod_lt_natAbs (randNext g).1 ((4 : Int) - (degreeOf rooms i : Int) + 1) hb
  have h2 := degreeOf_extraInner n i
    (cmod (randNext g).1 ((4 : Int) - (degreeOf rooms i : Int) + 1)) rooms (randNext g).2
  omega

/-- Witness for the amended C3 at a concrete input. -/
theorem c3_initiator_degree_bound_witness :
    degreeOf (initRooms 2) 0 ≤ 4 ∧ degreeOf (extraStep 2 0 (initRooms 2) []).1 0 ≤ 4 :=
  ⟨by decide, c3_initiator_degree_bound 2 0 (initRooms 2) [] (by decide)⟩

/-- C3 counterexample.  With `n = 7` and the all-zero RNG stream, every room
`1..6` picks `j = 0` in the spanning-tree pass, so room 0 ends generation
with degree 6: the claimed bound `degree ≤ 4` is false on the code. -/
theorem c3_degree_counterexample :
    ¬ degreeOf (create_dungeon 7 []).1 0 ≤ 4 := by decide

/-! ## Lemmas: combat -/

/-- Reference round, following the spec's words: the 16 bits of the draw
taken least significant first as an ordered list, each applied in order,
stopping before the next bit as soon as either hp is ≤ 0 (0 = monster hits
player, 1 = player hits monster). -/
def specRound (pdmg mdmg : Int) : List Bool → Int → Int → Int × Int
  | [], php, mhp => (php, mhp)
  | b :: bs, php, mhp =>
    if php ≤ 0 ∨ mhp ≤ 0 then (php, mhp)
    else if b then specRound pdmg mdmg bs php (mhp - pdmg)
    else specRound pdmg mdmg bs (php - mdmg) mhp

/-- The 16 bits of a draw, least significant first. -/
def roundBits (rnd : Nat) : List Bool := (List.range 16).map rnd.testBit

lemma testBit_false_of_mod (rnd i : Nat) (h : (rnd >>> i) % 2 = 0) :
    rnd.testBit i = false := by
  rw [Nat.testBit_to_div_mod]
  rw [Nat.shiftRight_eq_div_pow] at h
  simp only [decide_eq_false_iff_not]
  omega

lemma testBit_true_of_mod (rnd i : Nat) (h : ¬ (rnd >>> i) % 2 = 0) :
    rnd.testBit i = true := by
  rw [Nat.testBit_to_div_mod]
  rw [Nat.shiftRight_eq_div_pow] at h
  simp only [decide_eq_true_eq]
  omega

lemma bitLoop_eq_specRound (rnd : Nat) (pdmg mdmg : Int) :
    ∀ rem i php mhp,
      bitLoop rnd rem i php mhp pdmg mdmg
        = specRound pdmg mdmg ((List.range' i rem).map rnd.testBit) php mhp := by
  intro rem
  induction rem with
  | zero => intro i php mhp; rfl
  | succ r ih =>
    intro i php mhp
    rw [List.range'_succ]
    simp only [List.map_cons, bitLoop, specRound]
    by_cases halive : 0 < php ∧ 0 < mhp
    · have hnotdead : ¬ (php ≤ 0 ∨ mhp ≤ 0) := by push_neg; exact halive
      rw [if_pos halive, if_neg hnotdead]
      by_cases hbit : (rnd >>> i) % 2 = 0
      · rw [if_pos hbit, testBit_false_of_mod rnd i hbit]
        simp only [Bool.false_eq_true, if_false]
        exact ih (i + 1) (php - mdmg) mhp
      · rw [if_neg hbit, testBit_true_of_mod rnd i hbit]
        simp only [if_true]
        exact ih (i + 1) php (mhp - pdmg)
    · have hdead : php ≤ 0 ∨ mhp ≤ 0 := by
        rcases not_and_or.mp halive with h | h
        · exact Or.inl (by omega)
        · exact Or.inr (by omega)
      rw [if_neg halive, if_pos hdead]

/-- C4.  One combat round of `fight` consumes the 16-bit draw bit by bit in
index order 0..15 (0 hits the player, 1 hits the monster), stopping before
the next bit once either hp is ≤ 0 — the code's loop equals the spec's
bit-list trace — and when both survive the 16 bits, the outer loop starts a
fresh round with a fresh draw. -/
theorem c4_round_trace (rnd : Nat) (php mhp pdmg mdmg : Int) :
    bitLoop rnd 16 0 php mhp pdmg mdmg = specRound pdmg mdmg (roundBits rnd) php mhp
    ∧ ∀ fuel g, fightGo (fuel + 1) php mhp pdmg mdmg g
        = if 0 < php ∧ 0 < mhp then
            fightGo fuel (bitLoop ((randNext g).1 % 65536) 16 0 php mhp pdmg mdmg).1
              (bitLoop ((randNext g).1 % 65536) 16 0 php mhp pdmg mdmg).2
              pdmg mdmg (randNext g).2
          else if php ≤ 0 then some .gameOver else some (.survived php mhp g) := by
  constructor
  · rw [bitLoop_eq_specRound]
    simp [roundBits, List.range_eq_range']
  · intro fuel g
    rfl

lemma bitLoop_le (rnd : Nat) (pdmg mdmg : Int) (hp : 0 ≤ pdmg) (hm : 0 ≤ mdmg) :
    ∀ rem i php mhp,
      (bitLoop rnd rem i php mhp pdmg mdmg).1 ≤ php
      ∧ (bitLoop rnd rem i php mhp pdmg mdmg).2 ≤ mhp := by
  intro rem
  induction rem with
  | zero => intro i php mhp; simp [bitLoop]
  | succ r ih =>
    intro i php mhp
    simp only [bitLoop]
    split
    · split
      · have := ih (i + 1) (php - mdmg) mhp
        omega
      · have := ih (i + 1) php (mhp - pdmg)
        omega
    · simp

lemma bitLoop_progress (rnd : Nat) (pdmg mdmg : Int) (hp : 0 < pdmg) (hm : 0 < mdmg)
    (i : Nat) (php mhp : Int) (h1 : 0 < php) (h2 : 0 < mhp) (rem : Nat)
    (hrem : 0 < rem) :
    (bitLoop rnd rem i php mhp pdmg mdmg).1
      + (bitLoop rnd rem i php mhp pdmg mdmg).2 ≤ php + mhp - 1 := by
  obtain ⟨r, rfl⟩ : ∃ r, rem = r + 1 := ⟨rem - 1, by omega⟩
  simp only [bitLoop]
  rw [if_pos ⟨h1, h2⟩]
  split
  · have := bitLoop_le rnd pdmg mdmg (by omega) (by omega) r (i + 1) (php - mdmg) mhp
    omega
  · have := bitLoop_le rnd pdmg mdmg (by omega) (by omega) r (i + 1) php (mhp - pdmg)
    omega

lemma fightGo_total (pdmg mdmg : Int) (hpd : 0 < pdmg) (hmd : 0 < mdmg) :
    ∀ fuel (php mhp : Int) (g : RNG), php.toNat + mhp.toNat ≤ fuel →
      (fightGo (fuel + 1) php mhp pdmg mdmg g).isSome := by
  intro fuel
  induction fuel with
  | zero =>
    intro php mhp g hle
    simp only [fightGo]
    rw [if_neg (by omega)]
    split <;> simp
  | succ f ih =>
    intro php mhp g hle
    simp only [fightGo]
    by_cases halive : 0 < php ∧ 0 < mhp
    · rw [if_pos halive]
      have hle2 := bitLoop_le ((randNext g).1 % 65536) pdmg mdmg (by omega) (by omega)
        16 0 php mhp
      have hprog := bitLoop_progress ((randNext g).1 % 65536) pdmg mdmg hpd hmd
        0 php mhp halive.1 halive.2 16 (by omega)
      exact ih _ _ _ (by omega)
    · rw [if_neg halive]
      split <;> simp

lemma fightGo_survived (pdmg mdmg : Int) :
    ∀ fuel (php mhp : Int) (g : RNG) (p m : Int) (g1 : RNG),
      fightGo fuel php mhp pdmg mdmg g = some (.survived p m g1) → 0 < p ∧ m ≤ 0 := by
  intro fuel
  induction fuel with
  | zero => intro php mhp g p m g1 h; simp [fightGo] at h
  | succ f ih =>
    intro php mhp g p m g1 h
    simp only [fightGo] at h
    by_cases halive : 0 < php ∧ 0 < mhp
    · rw [if_pos halive] at h
      exact ih _ _ _ _ _ _ h
    · rw [if_neg halive] at h
      by_cases hpd : php ≤ 0
      · rw [if_pos hpd] at h
        simp at h
      · rw [if_neg hpd] at h
        simp only [Option.some.injEq, FightOutcome.survived.injEq] at h
        omega

/-- C5 (amended).  For every player and monster with positive hp and
positive damage values and every RNG stream, `fight` terminates: with fuel
`player.hp + monster.hp + 1` the round loop finishes, ending either with
the player dead (`exit(0)`) or a normal return in which the monster's hp is
≤ 0 and the player's is still positive. -/
theorem c5_fight_terminates (php mhp pdmg mdmg : Int) (g : RNG)
    (h1 : 0 < php) (h2 : 0 < mhp) (h3 : 0 < pdmg) (h4 : 0 < mdmg) :
    ∃ out, fightGo (php.toNat + mhp.toNat + 1) php mhp pdmg mdmg g = some out
      ∧ (out = .gameOver ∨ ∃ p m g1, out = .survived p m g1 ∧ 0 < p ∧ m ≤ 0) := by
  have hs := fightGo_total pdmg mdmg h3 h4 (php.toNat + mhp.toNat) php mhp g le_rfl
  obtain ⟨out, hout⟩ := Option.isSome_iff_exists.mp hs
  refine ⟨out, hout, ?_⟩
  cases out with
  | gameOver => exact Or.inl rfl
  | survived p m g1 =>
    exact Or.inr ⟨p, m, g1, rfl, fightGo_survived pdmg mdmg _ _ _ _ _ _ _ hout⟩

/-- Witness for the amended C5 at the concrete combat 20/5 hp/damage player
versus 8/5 monster with the all-zero RNG stream. -/
theorem c5_fight_terminates_witness :
    (0 : Int) < 20 ∧ (0 : Int) < 8 ∧
    ∃ out, fightGo ((20 : Int).toNat + (8 : Int).toNat + 1) 20 8 5 5 [] = some out
      ∧ (out = .gameOver ∨ ∃ p m g1, out = .survived p m g1 ∧ 0 < p ∧ m ≤ 0) :=
  ⟨by decide, by decide,
   c5_fight_terminates 20 8 5 5 [] (by decide) (by decide) (by decide) (by decide)⟩

lemma fightGo_stuck : ∀ fuel, fightGo fuel 1 1 5 0 [] = none := by
  intro fuel
  induction fuel with
  | zero => rfl
  | succ f ih =>
    rw [show fightGo (f + 1) 1 1 5 0 [] = fightGo f 1 1 5 0 [] from rfl]
    exact ih

/-- C5 counterexample.  The claim quantifies over every monster with
positive hp; for a monster with hp 1 and damage 0 against a player with
hp 1 and damage 5, the all-zero RNG stream makes every bit hit the player
for 0 damage, so no amount of fuel lets the round loop of `fight` finish:
the loop runs forever. -/
theorem c5_counterexample : ¬ ∃ fuel, (fightGo fuel 1 1 5 0 []).isSome := by
  rintro ⟨fuel, h⟩
  rw [fightGo_stuck fuel] at h
  simp at h

/-! ## Room entry: idempotent consumption, item pickup, treasure -/

lemma room_eta_visited (room : Room) (hv : room.visited = 1) :
    ({ room with visited := 1 } : Room) = room := by
  cases room
  simp_all

/-- C6.  Entering a consumed room a second time is idempotent: a room whose
handler is already `enter_empty` (the state after a monster or item was
consumed) and whose visited flag is set is returned unchanged along with
the player; and for a Monster or Item room the visited flag alone makes
`enter_monster`/`enter_item` behave as `enter_empty`, with no combat and no
effect on the player or on any content. -/
theorem c6_idempotent (room : Room) (player : Player) (fuel : Nat) (g : RNG)
    (hv : room.visited = 1) :
    (room.enter = .empty → runEnter fuel room player g = some (.ok room player g))
    ∧ enter_monster fuel room player g = some (.ok room player g)
    ∧ enter_item room player = (room, player) := by
  obtain ⟨id, nb, ct, c, v, e⟩ := room
  obtain rfl : v = 1 := hv
  refine ⟨?_, ?_, ?_⟩
  · intro he
    obtain rfl : e = .empty := he
    simp [runEnter, enter_empty]
  · simp [enter_monster, enter_empty]
  · simp [enter_item, enter_empty]

/-- Witness for C6 on a concrete consumed room. -/
theorem c6_idempotent_witness :
    ({ id := 1, neighbors := [0], content_type := .NONE, content := .null,
       visited := 1, enter := .empty } : Room).visited = 1
    ∧ enter_item
        { id := 1, neighbors := [0], content_type := .NONE, content := .null,
          visited := 1, enter := .empty } { location := 1, hp := 20, damage := 5 }
      = ({ id := 1, neighbors := [0], content_type := .NONE, content := .null,
           visited := 1, enter := .empty }, { location := 1, hp := 20, damage := 5 }) :=
  ⟨by decide,
   (c6_idempotent
     { id := 1, neighbors := [0], content_type := .NONE, content := .null,
       visited := 1, enter := .empty }
     { location := 1, hp := 20, damage := 5 } 5 [] (by decide)).2.2⟩

/-- C7.  Entering an unvisited Item room adds the item's `hp_restore` to the
player's hp and its `damage_boost` to the player's damage (the zero-guarded
updates in the C code amount to unconditional addition), empties the room's
content, and marks it visited; the player's location is untouched. -/
theorem c7_item_pickup (room : Room) (player : Player) (it : Item)
    (hv : room.visited = 0) (hc : room.content = .item it) :
    (enter_item room player).2.hp = player.hp + it.hp_restore
    ∧ (enter_item room player).2.damage = player.damage + it.damage_boost
    ∧ (enter_item room player).2.location = player.location
    ∧ (enter_item room player).1.content_type = .NONE
    ∧ (enter_item room player).1.content = .null
    ∧ (enter_item room player).1.visited = 1 := by
  simp only [enter_item, hv]
  rw [if_neg (by simp)]
  simp only [hc, getMonster, getItem]
  by_cases h1 : it.hp_restore = 0 <;> by_cases h2 : it.damage_boost = 0 <;>
    simp [applyRestore, applyBoost, h1, h2]

/-- Witness for C7: the spec's scenario — a Potion (hp_restore 10) entered
at player hp 15 leaves the player at 25 and the room empty and visited. -/
theorem c7_item_pickup_witness :
    ({ id := 2, neighbors := [], content_type := .ITEM,
       content := .item (itemOf .POTION), visited := 0, enter := .item } : Room).visited = 0
    ∧ (enter_item
        { id := 2, neighbors := [], content_type := .ITEM,
          content := .item (itemOf .POTION), visited := 0, enter := .item }
        { location := 2, hp := 15, damage := 5 }).2.hp
      = ({ location := 2, hp := 15, damage := 5 } : Player).hp + (itemOf .POTION).hp_restore
    ∧ (enter_item
        { id := 2, neighbors := [], content_type := .ITEM,
          content := .item (itemOf .POTION), visited := 0, enter := .item }
        { location := 2, hp := 15, damage := 5 }).2.hp = 25 :=
  ⟨by decide,
   (c7_item_pickup
     { id := 2, neighbors := [], content_type := .ITEM,
       content := .item (itemOf .POTION), visited := 0, enter := .item }
     { location := 2, hp := 15, damage := 5 } (itemOf .POTION) (by decide) (by decide)).1,
   by decide⟩

/-- C9.  Entering the Treasure room is an absorbing terminal win: the main
loop breaks before dispatching any handler, so the whole game state —
every room's content and visited flag, and the player's hp, damage and
location — is returned unchanged with outcome `win`, independent of any
door choice (no further room choice is consumed). -/
theorem c9_treasure_absorbing (s : GameState) (fuel : Nat) (g : RNG) (input : Option Int)
    (ht : (s.rooms.getD s.player.location default).content_type = .TREASURE) :
    mainStep fuel s g input = (.win, s, g) := by
  simp only [mainStep]
  rw [if_pos ht]

/-- Witness for C9 on a concrete two-room state whose player stands in the
treasure room. -/
theorem c9_treasure_absorbing_witness :
    (({ rooms := [{ id := 0, neighbors := [1], content_type := .NONE, content := .null,
                    visited := 1, enter := .empty },
                  { id := 1, neighbors := [0], content_type := .TREASURE, content := .null,
                    visited := 0, enter := .treasure }],
        player := { location := 1, hp := 20, damage := 5 } } : GameState).rooms.getD
        ({ rooms := [{ id := 0, neighbors := [1], content_type := .NONE, content := .null,
                       visited := 1, enter := .empty },
                     { id := 1, neighbors := [0], content_type := .TREASURE, content := .null,
                       visited := 0, enter := .treasure }],
           player := { location := 1, hp := 20, damage := 5 } } : GameState).player.location
        default).content_type = .TREASURE
    ∧ mainStep 5
        { rooms := [{ id := 0, neighbors := [1], content_type := .NONE, content := .null,
                      visited := 1, enter := .empty },
                    { id := 1, neighbors := [0], content_type := .TREASURE, content := .null,
                      visited := 0, enter := .treasure }],
          player := { location := 1, hp := 20, damage := 5 } } [] (some 0)
      = (.win,
         { rooms := [{ id := 0, neighbors := [1], content_type := .NONE, content := .null,
                       visited := 1, enter := .empty },
                     { id := 1, neighbors := [0], content_type := .TREASURE, content := .null,
                       visited := 0, enter := .treasure }],
           player := { location := 1, hp := 20, damage := 5 } }, []) :=
  ⟨by decide,
   c9_treasure_absorbing
     { rooms := [{ id := 0, neighbors := [1], content_type := .NONE, content := .null,
                   visited := 1, enter := .empty },
                 { id := 1, neighbors := [0], content_type := .TREASURE, content := .null,
                   visited := 0, enter := .treasure }],
       player := { location := 1, hp := 20, damage := 5 } } 5 [] (some 0) (by decide)⟩

/-! ## Decode performs no validation (C8) -/

/-- C8 is false of the code: `load_game` checks no read.  On the stream
`[2]` — a room count and nothing else — it happily builds a full two-room
session out of the garbage value `g = 7` an unchecked `fread` leaves behind
(and a different session for garbage 8, showing the output depends on
indeterminate memory); and it accepts the neighbor id 99 in a one-room
session without any range check.  There is no `FormatError` path at all. -/
theorem c8_no_validation :
    (load_game 7 [2]).rooms.length = 2
    ∧ (load_game 7 [2]).player.hp = 7
    ∧ (load_game 7 [2]).rooms.map (fun r => r.neighbors)
      = [[7, 7, 7, 7, 7, 7, 7], [7, 7, 7, 7, 7, 7, 7]]
    ∧ load_game 7 [2] ≠ load_game 8 [2]
    ∧ ((load_game 0 [1, 0, 20, 5, 0, 0, 1, 99]).rooms.getD 0 default).neighbors = [99] := by
  decide

/-! ## Lemmas: the save/load round trip -/

lemma codeToContentType_code (ct : ContentType) : codeToContentType ct.code = ct := by
  cases ct <;> rfl

lemma codeToMonsterType_code (mt : MonsterType) : codeToMonsterType mt.code = mt := by
  cases mt <;> rfl

lemma codeToItemType_code (it : ItemType) : codeToItemType it.code = it := by
  cases it <;> rfl

lemma itemOf_type (t : ItemType) : (itemOf t).type = t := by
  cases t <;> rfl

lemma encodeIds_cons (a : Nat) (t : List Nat) :
    encodeIds (a :: t) = (a : Int) :: encodeIds t := rfl

lemma readNeighbors_encode (g : Int) :
    ∀ (ids : List Nat) (acc : List Nat) (rest : List Int),
      readNeighbors g ids.length acc (encodeIds ids ++ rest)
        = (ids.reverse ++ acc, rest) := by
  intro ids
  induction ids with
  | nil => intro acc rest; simp [encodeIds, readNeighbors]
  | cons a t ih =>
    intro acc rest
    simp only [encodeIds_cons, List.length_cons, List.cons_append, readNeighbors, rd,
      add_neighbor, Int.toNat_natCast]
    rw [ih (a :: acc) rest]
    simp

lemma loadRoom_encodeRoom (g : Int) (i : Nat) (r : Room) (rest : List Int) :
    loadRoom g i (encodeRoom r ++ rest) = (loadedRoomOf i r, rest) := by
  obtain ⟨id, nb, ct, c, v, e⟩ := r
  cases ct <;>
    simp [loadRoom, encodeRoom, payloadOf, loadedRoomOf, rd,
      codeToContentType_code, codeToMonsterType_code, codeToItemType_code,
      Int.toNat_natCast, readNeighbors_encode g nb [] rest]

lemma loadRooms_encodeRooms (g : Int) :
    ∀ (rooms : List Room) (i : Nat) (rest : List Int),
      loadRooms g i rooms.length (encodeRooms rooms ++ rest)
        = (loadedRoomsOf i rooms, rest) := by
  intro rooms
  induction rooms with
  | nil => intro i rest; simp [encodeRooms, loadRooms, loadedRoomsOf]
  | cons r rs ih =>
    intro i rest
    simp only [encodeRooms, List.length_cons, List.append_assoc, loadRooms, loadedRoomsOf]
    rw [loadRoom_encodeRoom g i r (encodeRooms rs ++ rest), ih (i + 1) rest]

/-- What `load_game` reconstructs from the exact output of `save_game`. -/
lemma load_save_game (g : Int) (player : Player) (rooms : List Room) :
    load_game g (save_game player rooms)
      = { rooms := loadedRoomsOf 0 rooms,
          player := { location := player.location, hp := player.hp, damage := player.damage },
          n := (rooms.length : Int) } := by
  simp only [load_game, save_game, rd, Int.toNat_natCast]
  rw [← List.append_nil (encodeRooms rooms), loadRooms_encodeRooms g rooms 0 []]

lemma loadedRoomsOf_length : ∀ (rooms : List Room) (i : Nat),
    (loadedRoomsOf i rooms).length = rooms.length := by
  intro rooms
  induction rooms with
  | nil => intro i; rfl
  | cons r rs ih => intro i; simp [loadedRoomsOf, ih]

lemma loadedRoomsOf_getD : ∀ (rooms : List Room) (off k : Nat), k < rooms.length →
    (loadedRoomsOf off rooms).getD k default
      = loadedRoomOf (off + k) (rooms.getD k default) := by
  intro rooms
  induction rooms with
  | nil => intro off k h; simp at h
  | cons r rs ih =>
    intro off k h
    cases k with
    | zero => simp [loadedRoomsOf]
    | succ k =>
      simp only [loadedRoomsOf, List.getD_cons_succ]
      rw [ih (off + 1) k (by simpa using h)]
      congr 1
      omega

/-- C2.  Decoding the encoding of a session (`load_game` after `save_game`)
reproduces every room's visited flag, content-type tag, the monster's
current hp and damage when the content is a monster, the item type when the
content is an item, and the multiset of neighbor ids, and reproduces the
player's location id, hp and damage exactly.  The hypotheses restrict to
the sessions on which the C code has defined behavior: tags match their
payloads, neighbor ids and the player's location lie in `[0, n)`. -/
theorem c2_round_trip (g : Int) (player : Player) (rooms : List Room)
    (hloc : player.location < rooms.length)
    (hwf : rooms.all (roomOk rooms.length) = true) :
    (load_game g (save_game player rooms)).player.location = player.location
    ∧ (load_game g (save_game player rooms)).player.hp = player.hp
    ∧ (load_game g (save_game player rooms)).player.damage = player.damage
    ∧ (load_game g (save_game player rooms)).rooms.length = rooms.length
    ∧ ∀ i, i < rooms.length →
        ((load_game g (save_game player rooms)).rooms.getD i default).visited
            = (rooms.getD i default).visited
        ∧ ((load_game g (save_game player rooms)).rooms.getD i default).content_type
            = (rooms.getD i default).content_type
        ∧ ((rooms.getD i default).content_type = .MONSTER →
            (getMonster ((load_game g (save_game player rooms)).rooms.getD i default).content).hp
              = (getMonster (rooms.getD i default).content).hp
            ∧ (getMonster ((load_game g (save_game player rooms)).rooms.getD i default).content).damage
              = (getMonster (rooms.getD i default).content).damage)
        ∧ ((rooms.getD i default).content_type = .ITEM →
            (getItem ((load_game g (save_game player rooms)).rooms.getD i default).content).type
              = (getItem (rooms.getD i default).content).type)
        ∧ (((load_game g (save_game player rooms)).rooms.getD i default).neighbors : Multiset Nat)
            = ((rooms.getD i default).neighbors : Multiset Nat) := by
  rw [load_save_game]
  refine ⟨rfl, rfl, rfl, loadedRoomsOf_length rooms 0, ?_⟩
  intro i hi
  rw [loadedRoomsOf_getD rooms 0 i hi]
  refine ⟨rfl, rfl, ?_, ?_, ?_⟩
  · intro hct
    simp only [loadedRoomOf, hct, getMonster]
    exact ⟨trivial, trivial⟩
  · intro hct
    simp only [loadedRoomOf, hct, getItem, itemOf_type]
  · simp only [loadedRoomOf]
    exact Multiset.coe_reverse _

/-- Witness session for C2: three rooms (empty with two doors, a monster
room, an item room). -/
def exRooms : List Room :=
  [{ id := 0, neighbors := [1, 2], content_type := .NONE, content := .null,
     visited := 0, enter := .empty },
   { id := 1, neighbors := [0], content_type := .MONSTER,
     content := .monster { type := .TROLL, name := "Troll", hp := 7, damage := 3 },
     visited := 0, enter := .monster },
   { id := 2, neighbors := [0], content_type := .ITEM,
     content := .item { type := .SWORD, name := "Sword", hp_restore := 0, damage_boost := 2 },
     visited := 1, enter := .item }]

/-- Witness player for C2. -/
def exPlayer : Player := { location := 0, hp := 20, damage := 5 }

/-- Witness for C2 on the concrete session `exPlayer`/`exRooms`. -/
theorem c2_round_trip_witness :
    exPlayer.location < exRooms.length
    ∧ exRooms.all (roomOk exRooms.length) = true
    ∧ (load_game 0 (save_game exPlayer exRooms)).player.hp = exPlayer.hp :=
  ⟨by decide, by decide, (c2_round_trip 0 exPlayer exRooms (by decide) (by decide)).2.1⟩

/-- C10.  `load_game` rebuilds each neighbor list by prepending
(`add_neighbor`), so after a save/load round trip every room's in-memory
neighbor list is the exact reverse of the order `save_game` wrote it; the
multiset of neighbor ids is therefore preserved while the order is not. -/
theorem c10_neighbor_reversal (g : Int) (player : Player) (rooms : List Room)
    (hloc : player.location < rooms.length)
    (hwf : rooms.all (roomOk rooms.length) = true) :
    ∀ i, i < rooms.length →
      ((load_game g (save_game player rooms)).rooms.getD i default).neighbors
          = (rooms.getD i default).neighbors.reverse
      ∧ (((load_game g (save_game player rooms)).rooms.getD i default).neighbors : Multiset Nat)
          = ((rooms.getD i default).neighbors : Multiset Nat) := by
  rw [load_save_game]
  intro i hi
  rw [loadedRoomsOf_getD rooms 0 i hi]
  exact ⟨rfl, by simp [loadedRoomOf]⟩

/-- Witness for C10: room 0 of the witness session saved its neighbors as
`[1, 2]` and gets them back as `[2, 1]`. -/
theorem c10_neighbor_reversal_witness :
    exPlayer.location < exRooms.length
    ∧ ((load_game 0 (save_game exPlayer exRooms)).rooms.getD 0 default).neighbors
        = (exRooms.getD 0 default).neighbors.reverse :=
  ⟨by decide,
   (c10_neighbor_reversal 0 exPlayer exRooms (by decide) (by decide) 0 (by decide)).1⟩

end DungeonCrawler
